import Mathlib

/-! Shallow embedding of the bicycle turn-by-turn directions engine
    (`BicycleDirectionsEngine` and `AStarRoutingResult`) from
    `routing/bicycle_directions.cpp`, together with the external collaborators
    it consumes.  Release-build semantics are modelled: the `ASSERT*` macros
    are debug-only diagnostics (no-ops here), while the `CHECK*` macros abort
    in every build (modelled as `Option.none`). -/

namespace BicycleDirections

/-- A 2D mercator point (`m2::PointD`), with exact coordinates. -/
structure Point where
  x : Int
  y : Int
deriving DecidableEq

/-- A road-graph vertex (`routing::Junction`) carrying a geo point. -/
structure Junction where
  point : Point
deriving DecidableEq

/-- A map-partition id (`MwmSet::MwmId`).  The value `0` stands for the
    default-constructed (null) id; real partitions are nonzero. -/
abbrev MwmId := Nat

/-- An opaque feature key (`FeatureID`): partition id plus local index. -/
structure FeatureID where
  mwmId : MwmId
  index : Nat
deriving DecidableEq

/-- The validity predicate `FeatureID::IsValid()`: valid iff the partition id
    is a real (nonzero) one; synthetic (fake) edges carry the default id. -/
def FeatureID.IsValid (f : FeatureID) : Bool := f.mwmId ≠ 0

/-- A directed road-graph edge with its feature key and both endpoints. -/
structure Edge where
  featureId : FeatureID
  startJ : Junction
  endJ : Junction
deriving DecidableEq

/-- The road classes of `ftypes::HighwayClass` (a representative subset). -/
inductive HighwayClass where
  | Undefined
  | Error
  | Trunk
  | Primary
  | Secondary
  | Tertiary
  | LivingStreet
  | Service
  | Pedestrian
deriving DecidableEq

/-- The attribute record the external feature store resolves a feature to. -/
structure FeatureType where
  highwayClass : HighwayClass
  name : String
  isLink : Bool
  isRoundabout : Bool
deriving DecidableEq

/-- One outgoing turn candidate: angle, local feature index, road class. -/
structure TurnCandidate where
  angle : ℚ
  index : Nat
  highwayClass : HighwayClass
deriving DecidableEq

/-- The candidate container `turns::TurnCandidates`. -/
structure TurnCandidates where
  isCandidatesAngleValid : Bool
  candidates : List TurnCandidate
deriving DecidableEq

/-- The per-junction record `routing::AdjacentEdges` (declared in the header
    of the engine, which is not among the sources here).  Modelled from the
    spec: the count of ingoing edges together with the outgoing turn
    candidates; a freshly constructed record has an empty candidate set. -/
structure AdjacentEdges where
  ingoingTurnsCount : Nat
  outgoingTurns : TurnCandidates
deriving DecidableEq

/-- The constructor `AdjacentEdges(n)`: `n` ingoing edges, no candidates. -/
def AdjacentEdges.ofIngoing (n : Nat) : AdjacentEdges :=
  ⟨n, ⟨true, []⟩⟩

/-- The per-edge record `LoadedPathSegment` (fields used by this core). -/
structure LoadedPathSegment where
  highwayClass : HighwayClass
  isLink : Bool
  name : String
  nodeId : Nat
  onRoundabout : Bool
  path : List Point
deriving DecidableEq

/-- A cleared (default-constructed) segment, as after `Clear()`. -/
def LoadedPathSegment.cleared : LoadedPathSegment :=
  ⟨HighwayClass.Undefined, false, "", 0, false, []⟩

/-- The adjacency table `AdjacentEdgesMap` (`std::map<TNodeId, ...>`),
    embedded as an association list in insertion order. -/
abbrev AdjacentEdgesMap := List (Nat × AdjacentEdges)

/-- The lookup `std::map::find`. -/
def mapFind (m : AdjacentEdgesMap) (k : Nat) : Option AdjacentEdges :=
  (m.find? (fun p => p.1 == k)).map (fun p => p.2)

/-- The insertion `std::map::insert(make_pair(k, v))`: inserts only when `k`
    is absent and keeps the existing entry otherwise. -/
def mapInsert (m : AdjacentEdgesMap) (k : Nat) (v : AdjacentEdges) :
    AdjacentEdgesMap :=
  if (m.find? (fun p => p.1 == k)).isSome then m else m ++ [(k, v)]

/-- A turn instruction direction (`turns::TurnDirection`, subset). -/
inductive TurnDirection where
  | NoTurn
  | GoStraight
  | TurnRight
  | TurnLeft
  | ReachedYourDestination
deriving DecidableEq

/-- One entry of `Route::TTurns` (`turns::TurnItem`): path index + turn. -/
structure TurnItem where
  index : Nat
  turn : TurnDirection
deriving DecidableEq

/-- One entry of `Route::TTimes`: a path index paired with a time value. -/
abbrev TimeItem := Nat × ℚ

/-- The read-only adapter `AStarRoutingResult`, binding the traversed edges,
    the adjacency table and the segment sequence, plus the accumulated route
    length computed by its constructor. -/
structure AStarRoutingResult where
  routeEdges : List Edge
  adjacentEdges : AdjacentEdgesMap
  pathSegments : List LoadedPathSegment
  routeLength : ℚ
deriving DecidableEq

/-- The `AStarRoutingResult` constructor: binds the three collections and
    accumulates `m_routeLength` by adding, per route edge, the distance
    between the start point and the end point of that edge.  The geometric
    primitive `MercatorBounds::DistanceOnEarth` is external and is taken as
    the parameter `dist`. -/
def mkAStarRoutingResult (dist : Point → Point → ℚ) (routeEdges : List Edge)
    (adjacentEdges : AdjacentEdgesMap)
    (pathSegments : List LoadedPathSegment) : AStarRoutingResult :=
  { routeEdges := routeEdges
    adjacentEdges := adjacentEdges
    pathSegments := pathSegments
    routeLength :=
      routeEdges.foldl (fun acc e => acc + dist e.startJ.point e.endJ.point) 0 }

/-- The lookup `AStarRoutingResult::GetPossibleTurns` under release
    semantics: the out parameters are zeroed, then overwritten from the map
    entry when the key is present; on an absent key the debug assertion is a
    no-op and the zeroed values are what the caller observes. -/
def AStarRoutingResult.getPossibleTurns (r : AStarRoutingResult)
    (node : Nat) : Nat × List TurnCandidate :=
  match mapFind r.adjacentEdges node with
  | none => (0, [])
  | some a => (a.ingoingTurnsCount, a.outgoingTurns.candidates)

/-- The accessor `GetPathLength`, returning the stored `m_routeLength`. -/
def AStarRoutingResult.getPathLength (r : AStarRoutingResult) : ℚ :=
  r.routeLength

/-- The accessor `GetStartPoint`: `CHECK(!m_routeEdges.empty())` aborts in
    all builds on an empty edge sequence, modelled as `none`. -/
def AStarRoutingResult.getStartPoint (r : AStarRoutingResult) :
    Option Point :=
  r.routeEdges.head?.map (fun e => e.startJ.point)

/-- The accessor `GetEndPoint`, with the same emptiness check. -/
def AStarRoutingResult.getEndPoint (r : AStarRoutingResult) : Option Point :=
  r.routeEdges.getLast?.map (fun e => e.endJ.point)

/-- The external feature store (`Index`): resolves a (partition, local index)
    pair to the attribute record of that feature. -/
structure Index where
  getFeature : MwmId → Nat → FeatureType

/-- A loader context `Index::FeaturesLoaderGuard`, constructed for one map
    partition. -/
structure FeaturesLoaderGuard where
  mwmId : MwmId
deriving DecidableEq

/-- The mutable state of `BicycleDirectionsEngine`: the injected feature
    store, the cached loader guard with its recorded partition id, and the
    two member collections rebuilt by every `Generate` call.  The field
    `loaderConstructions` instruments how many guard constructions have
    happened (the resolution counter the spec asks to observe). -/
structure Engine where
  index : Index
  featuresLoaderGuard : Option FeaturesLoaderGuard
  mwmIdFeaturesLoaderGuard : MwmId
  loaderConstructions : Nat
  adjacentEdges : AdjacentEdgesMap
  pathSegments : List LoadedPathSegment

/-- The constructor `BicycleDirectionsEngine(Index const &)`: stores the
    feature store; the guard pointer is null and the recorded partition id is
    default-constructed. -/
def mkEngine (index : Index) : Engine :=
  ⟨index, none, 0, 0, [], []⟩

/-- The method `UpdateFeatureLoaderGuardIfNeeded`, translated verbatim: a
    fresh loader guard is constructed when none is held or when the requested
    partition differs from `m_mwmIdFeaturesLoaderGuard`.  Note that the
    source never assigns `m_mwmIdFeaturesLoaderGuard` anywhere, so it keeps
    its default value. -/
def updateFeatureLoaderGuardIfNeeded (st : Engine) (mwmId : MwmId) : Engine :=
  if st.featuresLoaderGuard.isNone ∨ mwmId ≠ st.mwmIdFeaturesLoaderGuard then
    { st with
      featuresLoaderGuard := some ⟨mwmId⟩
      loaderConstructions := st.loaderConstructions + 1 }
  else st

/-- The partition the held loader guard reads from (the dereference of
    `m_featuresLoaderGuard`); meaningful once a guard is held. -/
def guardMwm (st : Engine) : MwmId :=
  match st.featuresLoaderGuard with
  | some g => g.mwmId
  | none => 0

/-- The method `GetHighwayClass`: refresh the loader guard, resolve the
    feature through the guard and read its highway class (the debug
    assertions on `Error` and `Undefined` are no-ops in release builds). -/
def getHighwayClass (st : Engine) (featureId : FeatureID) :
    Engine × HighwayClass :=
  let st1 := updateFeatureLoaderGuardIfNeeded st featureId.mwmId
  (st1, (st1.index.getFeature (guardMwm st1) featureId.index).highwayClass)

/-- The method `LoadPathGeometry`: the segment is cleared first; an invalid
    feature id leaves it cleared (the debug assertion is a no-op); otherwise
    the guard is refreshed and the attribute fields are filled from the
    resolved feature. -/
def loadPathGeometry (st : Engine) (featureId : FeatureID)
    (path : List Point) : Engine × LoadedPathSegment :=
  if featureId.IsValid then
    let st1 := updateFeatureLoaderGuardIfNeeded st featureId.mwmId
    let ft := st1.index.getFeature (guardMwm st1) featureId.index
    (st1,
     { highwayClass := ft.highwayClass
       isLink := ft.isLink
       name := ft.name
       nodeId := featureId.index
       onRoundabout := ft.isRoundabout
       path := path })
  else (st, LoadedPathSegment.cleared)

/-- The road-graph port (`IRoadGraph`): the outgoing and ingoing edges of
    each junction. -/
structure RoadGraph where
  outgoingEdges : Junction → List Edge
  ingoingEdges : Junction → List Edge

/-- Modelled from the spec: the connecting-edge lookup inside
    `ReconstructPath` (the reconstructor itself is not among the sources) —
    find an outgoing edge of `a` that leads to `b`. -/
def findEdge (graph : RoadGraph) (a b : Junction) : Option Edge :=
  (graph.outgoingEdges a).find? (fun e => decide (e.endJ = b))

/-- Modelled from the spec: `ReconstructPath` (spec section 4.1) — turn the
    ordered junction sequence into the ordered traversed-edge sequence, the
    cooperative cancellation signal being polled once per connecting-edge
    lookup (`cancel k` is the value of the signal at the k-th poll); a fired
    signal or a missing connecting edge fails the whole reconstruction and no
    partial edge list is returned. -/
def reconstructPathAux (graph : RoadGraph) (cancel : Nat → Bool) :
    List Junction → Nat → Option (List Edge)
  | a :: b :: rest, step =>
    if cancel step then none
    else
      match findEdge graph a b with
      | none => none
      | some e =>
        (reconstructPathAux graph cancel (b :: rest) (step + 1)).map
          (fun es => e :: es)
  | _, _ => some []

/-- The reconstruction entry point, polling from step 0. -/
def reconstructPath (graph : RoadGraph) (cancel : Nat → Bool)
    (path : List Junction) : Option (List Edge) :=
  reconstructPathAux graph cancel path 0

/-- The output of the external turn-instruction algorithm
    (`turns::MakeTurnAnnotation`): simplified geometry, the turn list,
    per-segment times and street names. -/
structure TurnAnnoResult where
  routeGeometry : List Point
  turns : List TurnItem
  times : List TimeItem
  streets : List (Nat × String)

/-- The external collaborators `Generate` consumes: the geometric distance
    primitive, the inherited `CalculateTimes`, and `MakeTurnAnnotation`. -/
structure Externals where
  dist : Point → Point → ℚ
  calcTimes : RoadGraph → List Junction → List TimeItem
  turnAnno : AStarRoutingResult → TurnAnnoResult

/-- The inner candidate loop of the junction pass in `Generate`: walk the
    outgoing edges in order, skip fake edges (invalid feature id), and emit
    one turn candidate per real edge with zero angle, the local feature index
    and the resolved highway class, threading the engine state through the
    resolutions. -/
def buildCandidates : Engine → List Edge → Engine × List TurnCandidate
  | st, [] => (st, [])
  | st, e :: es =>
    if e.featureId.IsValid then
      let r := getHighwayClass st e.featureId
      let rest := buildCandidates r.1 es
      (rest.1, ⟨0, e.featureId.index, r.2⟩ :: rest.2)
    else buildCandidates st es

/-- One iteration of the junction loop of `Generate` (loop index `i`): build
    the `AdjacentEdges` record of junction `curr` with the angle flag marked
    not applicable, load the path segment for the entering edge when its
    feature id is valid, then register the record under the feature index of
    the entering edge (`std::map::insert`) and push the segment. -/
def processJunction (st : Engine) (graph : RoadGraph) (prev curr : Junction)
    (inEdge : Edge) : Engine :=
  let outgoingEdges := graph.outgoingEdges curr
  let ingoingEdges := graph.ingoingEdges curr
  let inEdgeFeatureId := inEdge.featureId
  let r := buildCandidates st outgoingEdges
  let adjacent : AdjacentEdges :=
    { ingoingTurnsCount := ingoingEdges.length
      outgoingTurns := { isCandidatesAngleValid := false, candidates := r.2 } }
  let s :=
    if inEdgeFeatureId.IsValid then
      loadPathGeometry r.1 inEdgeFeatureId [prev.point, curr.point]
    else (r.1, LoadedPathSegment.cleared)
  { s.1 with
    adjacentEdges := mapInsert s.1.adjacentEdges inEdgeFeatureId.index adjacent
    pathSegments := s.1.pathSegments ++ [s.2] }

/-- The iteration space of the junction loop: the triples
    `(path[i-1], path[i], routeEdges[i-1])` for `i = 1 .. pathSize-1`. -/
def stepsOf : List Junction → List Edge → List (Junction × Junction × Edge)
  | p1 :: p2 :: ps, e :: es => (p1, p2, e) :: stepsOf (p2 :: ps) es
  | _, _ => []

/-- The junction loop itself, threading the engine state. -/
def runLoop (graph : RoadGraph) :
    Engine → List (Junction × Junction × Edge) → Engine
  | st, [] => st
  | st, (prev, curr, e) :: rest =>
    runLoop graph (processJunction st graph prev curr e) rest

/-- The out parameters of `Generate` (`times`, `turns`, `routeGeometry`),
    plus, for the normal branch, the `AStarRoutingResult` view handed to
    `MakeTurnAnnotation` (`none` in the degenerate branches, which never
    build the adapter). -/
structure GenerateOutput where
  times : List TimeItem
  turns : List TurnItem
  routeGeometry : List Point
  adapterUsed : Option AStarRoutingResult

/-- The lambda `emptyPathWorkaround`: emit the single reached-destination
    turn at the last path index, and set the adjacency map (empty at every
    call site) to the lone origin record reporting one ingoing edge, via
    `m_adjacentEdges[0] = AdjacentEdges(1)`. -/
def emptyPathWorkaround (pathSize : Nat) (times : List TimeItem)
    (st : Engine) : GenerateOutput × Engine :=
  ({ times := times
     turns := [⟨pathSize - 1, TurnDirection.ReachedYourDestination⟩]
     routeGeometry := []
     adapterUsed := none },
   { st with adjacentEdges := [(0, AdjacentEdges.ofIngoing 1)] })

/-- The method `BicycleDirectionsEngine::Generate` under release semantics.
    The entry check `CHECK_NOT_EQUAL(pathSize, 0, ())` aborts in every build
    (modelled as `none`); the `ASSERT`s are debug-only no-ops.  All
    previously held state — the out parameters and the member collections
    `m_adjacentEdges` and `m_pathSegments` — is cleared at entry; every
    failure mode funnels into `emptyPathWorkaround`. -/
def generate (ext : Externals) (st0 : Engine) (graph : RoadGraph)
    (path : List Junction) (cancel : Nat → Bool) :
    Option (GenerateOutput × Engine) :=
  let pathSize := path.length
  if pathSize = 0 then none
  else
    let st := { st0 with adjacentEdges := [], pathSegments := [] }
    if pathSize ≤ 1 then some (emptyPathWorkaround pathSize [] st)
    else
      let times := ext.calcTimes graph path
      match reconstructPath graph cancel path with
      | none => some (emptyPathWorkaround pathSize times st)
      | some routeEdges =>
        if routeEdges.isEmpty then
          some (emptyPathWorkaround pathSize times st)
        else
          let st1 :=
            { st with
              adjacentEdges :=
                mapInsert st.adjacentEdges 0 (AdjacentEdges.ofIngoing 0) }
          let st2 := runLoop graph st1 (stepsOf path routeEdges)
          let result :=
            mkAStarRoutingResult ext.dist routeEdges st2.adjacentEdges
              st2.pathSegments
          let ann := ext.turnAnno result
          some
            ({ times := times
               turns := ann.turns
               routeGeometry := ann.routeGeometry
               adapterUsed := some result }, st2)

/-- The description the spec gives of the outgoing candidate set (spec
    section 4.2), stated from the words of the spec for comparison with the
    `buildCandidates` loop of the engine: one entry per outgoing edge whose
    feature identifier is valid, carrying that edge road class; synthetic
    edges are filtered out. -/
def candidatesSpec (idx : Index) (outgoing : List Edge) :
    List TurnCandidate :=
  (outgoing.filter (fun e => e.featureId.IsValid)).map
    (fun e =>
      ⟨0, e.featureId.index,
       (idx.getFeature e.featureId.mwmId e.featureId.index).highwayClass⟩)

/-! Concrete fixtures used by counterexamples and witnesses. -/

/-- A concrete feature store: index 7 resolves to a primary road named `ab`,
    index 9 to a secondary road named `bc`, anything else to tertiary. -/
def idx0 : Index :=
  ⟨fun _ i =>
    if i = 7 then ⟨HighwayClass.Primary, "ab", false, false⟩
    else if i = 9 then ⟨HighwayClass.Secondary, "bc", false, false⟩
    else ⟨HighwayClass.Tertiary, "", false, false⟩⟩

/-- Concrete external collaborators: unit distance, one time entry per call,
    and a fixed one-instruction turn annotation. -/
def ext0 : Externals :=
  ⟨fun _ _ => 1,
   fun _ path => [(path.length, 5)],
   fun _ => ⟨[], [⟨0, TurnDirection.GoStraight⟩], [], []⟩⟩

def jA : Junction := ⟨⟨0, 0⟩⟩

def jB : Junction := ⟨⟨1, 0⟩⟩

def jC : Junction := ⟨⟨2, 0⟩⟩

def eAB : Edge := ⟨⟨1, 7⟩, jA, jB⟩

def eBC : Edge := ⟨⟨1, 9⟩, jB, jC⟩

def eBA : Edge := ⟨⟨1, 11⟩, jB, jA⟩

/-- A synthetic (fake) edge: its feature id carries the null partition. -/
def eFake : Edge := ⟨⟨0, 3⟩, jB, jA⟩

/-- A concrete road graph over three junctions; junction `jB` has one fake
    and two real outgoing edges. -/
def graph3 : RoadGraph :=
  ⟨fun v => if v = jA then [eAB] else if v = jB then [eFake, eBC, eBA] else [],
   fun v => if v = jB then [eAB] else if v = jC then [eBC] else []⟩

/-- A road graph whose two route edges share one feature index. -/
def graphDup : RoadGraph :=
  ⟨fun v =>
    if v = jA then [⟨⟨1, 7⟩, jA, jB⟩]
    else if v = jB then [⟨⟨1, 7⟩, jB, jC⟩] else [],
   fun v =>
    if v = jB then [⟨⟨1, 7⟩, jA, jB⟩]
    else if v = jC then [⟨⟨1, 7⟩, jB, jC⟩] else []⟩

/-- The never-firing cancellation signal. -/
def nc : Nat → Bool := fun _ => false

def path3 : List Junction := [jA, jB, jC]

def dfltPair : GenerateOutput × Engine :=
  (⟨[], [], [], none⟩, mkEngine idx0)

def dfltAdapter : AStarRoutingResult := ⟨[], [], [], 0⟩

/-- The first concrete `generate` run on the three-junction fixture. -/
def run3 : GenerateOutput × Engine :=
  (generate ext0 (mkEngine idx0) graph3 path3 nc).getD dfltPair

/-- A second run from the post-state of the first. -/
def run3b : GenerateOutput × Engine :=
  (generate ext0 run3.2 graph3 path3 nc).getD dfltPair

/-- A concrete adapter holding only the origin record with zero candidates. -/
def r3abs : AStarRoutingResult :=
  ⟨[], [(0, AdjacentEdges.ofIngoing 0)], [], 0⟩

/-- A concrete unit distance function. -/
def dist1 : Point → Point → ℚ := fun _ _ => 1

/-- The always-fired cancellation signal. -/
def cancelT : Nat → Bool := fun _ => true

/-- Two engine states are view-equal when they share the feature store, both
    carry the never-assigned default recorded partition id, and agree on the
    two member collections; the loader-guard cache may differ. -/
def ViewEq (st st2 : Engine) : Prop :=
  st.index = st2.index ∧ st.mwmIdFeaturesLoaderGuard = 0 ∧
    st2.mwmIdFeaturesLoaderGuard = 0 ∧ st.adjacentEdges = st2.adjacentEdges ∧
    st.pathSegments = st2.pathSegments

/-- Projection helper: the edge list bound by the adapter constructor. -/
theorem mkAStar_routeEdges (dist : Point → Point → ℚ) (es : List Edge)
    (a : AdjacentEdgesMap) (s : List LoadedPathSegment) :
    (mkAStarRoutingResult dist es a s).routeEdges = es := rfl

/-! Helper lemmas: state projections of the loader-guard machinery. -/

theorem update_index (st : Engine) (m : MwmId) :
    (updateFeatureLoaderGuardIfNeeded st m).index = st.index := by
  unfold updateFeatureLoaderGuardIfNeeded
  split <;> rfl

theorem update_mwm (st : Engine) (m : MwmId) :
    (updateFeatureLoaderGuardIfNeeded st m).mwmIdFeaturesLoaderGuard =
      st.mwmIdFeaturesLoaderGuard := by
  unfold updateFeatureLoaderGuardIfNeeded
  split <;> rfl

theorem update_adjacent (st : Engine) (m : MwmId) :
    (updateFeatureLoaderGuardIfNeeded st m).adjacentEdges =
      st.adjacentEdges := by
  unfold updateFeatureLoaderGuardIfNeeded
  split <;> rfl

theorem update_segments (st : Engine) (m : MwmId) :
    (updateFeatureLoaderGuardIfNeeded st m).pathSegments = st.pathSegments := by
  unfold updateFeatureLoaderGuardIfNeeded
  split <;> rfl

theorem update_guard (st : Engine) (m : MwmId)
    (h0 : st.mwmIdFeaturesLoaderGuard = 0) (hm : m ≠ 0) :
    (updateFeatureLoaderGuardIfNeeded st m).featuresLoaderGuard = some ⟨m⟩ := by
  unfold updateFeatureLoaderGuardIfNeeded
  rw [if_pos (Or.inr (by rw [h0]; exact hm))]

theorem guardMwm_eq (st : Engine) (g : FeaturesLoaderGuard)
    (h : st.featuresLoaderGuard = some g) : guardMwm st = g.mwmId := by
  unfold guardMwm
  rw [h]

theorem getHighwayClass_fst (st : Engine) (f : FeatureID) :
    (getHighwayClass st f).1 = updateFeatureLoaderGuardIfNeeded st f.mwmId :=
  rfl

theorem mwmId_ne_zero_of_valid (f : FeatureID) (hv : f.IsValid = true) :
    f.mwmId ≠ 0 := by
  simpa [FeatureID.IsValid] using hv

theorem getHighwayClass_snd (st : Engine) (f : FeatureID)
    (hv : f.IsValid = true) (h0 : st.mwmIdFeaturesLoaderGuard = 0) :
    (getHighwayClass st f).2 =
      (st.index.getFeature f.mwmId f.index).highwayClass := by
  have hm := mwmId_ne_zero_of_valid f hv
  unfold getHighwayClass
  dsimp only
  rw [guardMwm_eq _ _ (update_guard st f.mwmId h0 hm), update_index]

theorem loadPathGeometry_fst (st : Engine) (f : FeatureID) (p : List Point) :
    (loadPathGeometry st f p).1 =
      if f.IsValid then updateFeatureLoaderGuardIfNeeded st f.mwmId else st := by
  unfold loadPathGeometry
  split <;> rfl

theorem loadPathGeometry_snd (st : Engine) (f : FeatureID) (p : List Point)
    (hv : f.IsValid = true) (h0 : st.mwmIdFeaturesLoaderGuard = 0) :
    (loadPathGeometry st f p).2 =
      (let ft := st.index.getFeature f.mwmId f.index
       { highwayClass := ft.highwayClass
         isLink := ft.isLink
         name := ft.name
         nodeId := f.index
         onRoundabout := ft.isRoundabout
         path := p }) := by
  have hm := mwmId_ne_zero_of_valid f hv
  unfold loadPathGeometry
  rw [if_pos hv]
  dsimp only
  rw [guardMwm_eq _ _ (update_guard st f.mwmId h0 hm), update_index]

/-! Helper lemmas: state projections of the candidate loop. -/

theorem buildCandidates_index (es : List Edge) : ∀ st : Engine,
    ((buildCandidates st es).1).index = st.index := by
  induction es with
  | nil => intro st; rfl
  | cons e es ih =>
    intro st
    unfold buildCandidates
    split
    · simpa [ih] using update_index st e.featureId.mwmId
    · exact ih st

theorem buildCandidates_mwm (es : List Edge) : ∀ st : Engine,
    ((buildCandidates st es).1).mwmIdFeaturesLoaderGuard =
      st.mwmIdFeaturesLoaderGuard := by
  induction es with
  | nil => intro st; rfl
  | cons e es ih =>
    intro st
    unfold buildCandidates
    split
    · simpa [ih] using update_mwm st e.featureId.mwmId
    · exact ih st

theorem buildCandidates_adjacent (es : List Edge) : ∀ st : Engine,
    ((buildCandidates st es).1).adjacentEdges = st.adjacentEdges := by
  induction es with
  | nil => intro st; rfl
  | cons e es ih =>
    intro st
    unfold buildCandidates
    split
    · simpa [ih] using update_adjacent st e.featureId.mwmId
    · exact ih st

theorem buildCandidates_segments (es : List Edge) : ∀ st : Engine,
    ((buildCandidates st es).1).pathSegments = st.pathSegments := by
  induction es with
  | nil => intro st; rfl
  | cons e es ih =>
    intro st
    unfold buildCandidates
    split
    · simpa [ih] using update_segments st e.featureId.mwmId
    · exact ih st

/-- The candidate loop computes exactly the candidate set the spec describes,
    whenever the recorded guard partition id is the default one (which it
    always is: the source never assigns it). -/
theorem buildCandidates_spec (es : List Edge) : ∀ st : Engine,
    st.mwmIdFeaturesLoaderGuard = 0 →
    (buildCandidates st es).2 = candidatesSpec st.index es := by
  induction es with
  | nil => intro st _; rfl
  | cons e es ih =>
    intro st h0
    unfold buildCandidates
    by_cases hv : e.featureId.IsValid = true
    · rw [if_pos hv]
      dsimp only
      have h0s : ((getHighwayClass st e.featureId).1).mwmIdFeaturesLoaderGuard
          = 0 := by
        rw [getHighwayClass_fst, update_mwm]; exact h0
      have hidx : ((getHighwayClass st e.featureId).1).index = st.index := by
        rw [getHighwayClass_fst, update_index]
      rw [ih _ h0s, hidx, getHighwayClass_snd st e.featureId hv h0]
      simp [candidatesSpec, hv]
    · rw [if_neg hv, ih st h0]
      simp [candidatesSpec, Bool.of_not_eq_true hv]

/-! Helper lemmas: the adjacency map. -/

theorem mapFind_isSome_eq (m : AdjacentEdgesMap) (k : Nat) :
    (mapFind m k).isSome = (m.find? (fun p => p.1 == k)).isSome := by
  unfold mapFind
  cases h : m.find? (fun p => p.1 == k) <;> simp [h]

theorem mapFind_isSome_iff (m : AdjacentEdgesMap) (k : Nat) :
    (mapFind m k).isSome = true ↔ k ∈ m.map (fun p => p.1) := by
  rw [mapFind_isSome_eq, List.find?_isSome]
  simp [List.mem_map, beq_iff_eq]

theorem keys_mapInsert (m : AdjacentEdgesMap) (k : Nat) (v : AdjacentEdges) :
    (mapInsert m k v).map (fun p => p.1) =
      if (mapFind m k).isSome then m.map (fun p => p.1)
      else m.map (fun p => p.1) ++ [k] := by
  unfold mapInsert
  rw [mapFind_isSome_eq]
  split <;> simp

theorem keys_nodup_mapInsert (m : AdjacentEdgesMap) (k : Nat)
    (v : AdjacentEdges) (h : (m.map (fun p => p.1)).Nodup) :
    ((mapInsert m k v).map (fun p => p.1)).Nodup := by
  rw [keys_mapInsert]
  split
  · exact h
  · rename_i hns
    have hk : k ∉ m.map (fun p => p.1) := by
      rw [← mapFind_isSome_iff]
      simpa using hns
    simp [List.nodup_append, h, hk]

theorem mapFind_mapInsert_isSome (m : AdjacentEdgesMap) (k k2 : Nat)
    (v : AdjacentEdges) :
    (mapFind (mapInsert m k v) k2).isSome = true ↔
      ((mapFind m k2).isSome = true ∨ k2 = k) := by
  rw [mapFind_isSome_iff, mapFind_isSome_iff, keys_mapInsert]
  split
  · rename_i hs
    constructor
    · exact Or.inl
    · rintro (h | rfl)
      · exact h
      · rw [← mapFind_isSome_iff]; exact hs
  · simp

/-! Helper lemmas: state projections of `loadPathGeometry` and
    `processJunction`. -/

theorem load_index (st : Engine) (f : FeatureID) (p : List Point) :
    (loadPathGeometry st f p).1.index = st.index := by
  rw [loadPathGeometry_fst]
  split
  · rw [update_index]
  · rfl

theorem load_mwm (st : Engine) (f : FeatureID) (p : List Point) :
    (loadPathGeometry st f p).1.mwmIdFeaturesLoaderGuard =
      st.mwmIdFeaturesLoaderGuard := by
  rw [loadPathGeometry_fst]
  split
  · rw [update_mwm]
  · rfl

theorem load_adjacent (st : Engine) (f : FeatureID) (p : List Point) :
    (loadPathGeometry st f p).1.adjacentEdges = st.adjacentEdges := by
  rw [loadPathGeometry_fst]
  split
  · rw [update_adjacent]
  · rfl

theorem load_segments (st : Engine) (f : FeatureID) (p : List Point) :
    (loadPathGeometry st f p).1.pathSegments = st.pathSegments := by
  rw [loadPathGeometry_fst]
  split
  · rw [update_segments]
  · rfl

theorem processJunction_index (st : Engine) (g : RoadGraph)
    (prev curr : Junction) (e : Edge) :
    (processJunction st g prev curr e).index = st.index := by
  unfold processJunction
  dsimp only
  split
  · rw [load_index, buildCandidates_index]
  · rw [buildCandidates_index]

theorem processJunction_mwm (st : Engine) (g : RoadGraph)
    (prev curr : Junction) (e : Edge) :
    (processJunction st g prev curr e).mwmIdFeaturesLoaderGuard =
      st.mwmIdFeaturesLoaderGuard := by
  unfold processJunction
  dsimp only
  split
  · rw [load_mwm, buildCandidates_mwm]
  · rw [buildCandidates_mwm]

theorem processJunction_adjacent (st : Engine) (g : RoadGraph)
    (prev curr : Junction) (e : Edge) :
    (processJunction st g prev curr e).adjacentEdges =
      mapInsert st.adjacentEdges e.featureId.index
        ⟨(g.ingoingEdges curr).length,
         ⟨false, (buildCandidates st (g.outgoingEdges curr)).2⟩⟩ := by
  unfold processJunction
  dsimp only
  split
  · rw [load_adjacent, buildCandidates_adjacent]
  · rw [buildCandidates_adjacent]

theorem processJunction_segments_length (st : Engine) (g : RoadGraph)
    (prev curr : Junction) (e : Edge) :
    (processJunction st g prev curr e).pathSegments.length =
      st.pathSegments.length + 1 := by
  unfold processJunction
  dsimp only
  split <;>
    simp [List.length_append, load_segments, buildCandidates_segments]

/-! Helper lemmas: the junction loop. -/

theorem runLoop_index (g : RoadGraph)
    (ts : List (Junction × Junction × Edge)) : ∀ st : Engine,
    (runLoop g st ts).index = st.index := by
  induction ts with
  | nil => intro st; rfl
  | cons t ts ih =>
    intro st
    obtain ⟨prev, curr, e⟩ := t
    show (runLoop g (processJunction st g prev curr e) ts).index = st.index
    rw [ih, processJunction_index]

theorem runLoop_mwm (g : RoadGraph)
    (ts : List (Junction × Junction × Edge)) : ∀ st : Engine,
    (runLoop g st ts).mwmIdFeaturesLoaderGuard =
      st.mwmIdFeaturesLoaderGuard := by
  induction ts with
  | nil => intro st; rfl
  | cons t ts ih =>
    intro st
    obtain ⟨prev, curr, e⟩ := t
    have h := ih (processJunction st g prev curr e)
    rw [processJunction_mwm] at h
    exact h

theorem runLoop_segments_length (g : RoadGraph)
    (ts : List (Junction × Junction × Edge)) : ∀ st : Engine,
    (runLoop g st ts).pathSegments.length =
      st.pathSegments.length + ts.length := by
  induction ts with
  | nil => intro st; rfl
  | cons t ts ih =>
    intro st
    obtain ⟨prev, curr, e⟩ := t
    have h := ih (processJunction st g prev curr e)
    rw [processJunction_segments_length] at h
    exact h.trans (by simp only [List.length_cons]; omega)

theorem runLoop_find_isSome (g : RoadGraph)
    (ts : List (Junction × Junction × Edge)) (k : Nat) : ∀ st : Engine,
    ((mapFind (runLoop g st ts).adjacentEdges k).isSome = true ↔
      ((mapFind st.adjacentEdges k).isSome = true ∨
        k ∈ ts.map (fun t => t.2.2.featureId.index))) := by
  induction ts with
  | nil => intro st; simp [runLoop]
  | cons t ts ih =>
    intro st
    obtain ⟨prev, curr, e⟩ := t
    have h := ih (processJunction st g prev curr e)
    rw [processJunction_adjacent, mapFind_mapInsert_isSome] at h
    refine h.trans ?_
    simp only [List.map_cons, List.mem_cons]
    tauto

theorem runLoop_keys_nodup (g : RoadGraph)
    (ts : List (Junction × Junction × Edge)) : ∀ st : Engine,
    (st.adjacentEdges.map (fun p => p.1)).Nodup →
    ((runLoop g st ts).adjacentEdges.map (fun p => p.1)).Nodup := by
  induction ts with
  | nil => intro st h; exact h
  | cons t ts ih =>
    intro st h
    obtain ⟨prev, curr, e⟩ := t
    exact ih (processJunction st g prev curr e)
      (by rw [processJunction_adjacent]; exact keys_nodup_mapInsert _ _ _ h)

/-! Helper lemmas: the iteration space of the loop. -/

theorem stepsOf_map_edge : ∀ (js : List Junction) (es : List Edge),
    es.length + 1 = js.length →
    (stepsOf js es).map (fun t => t.2.2) = es := by
  intro js
  induction js with
  | nil => intro es h; simp at h
  | cons p1 js ih =>
    intro es h
    cases js with
    | nil =>
      have he : es = [] := by
        cases es with
        | nil => rfl
        | cons e es => simp at h
      subst he
      rfl
    | cons p2 ps =>
      cases es with
      | nil => simp at h
      | cons e es =>
        show ((p1, p2, e) :: stepsOf (p2 :: ps) es).map (fun t => t.2.2)
            = e :: es
        rw [List.map_cons]
        rw [ih es (by simp at h ⊢; omega)]

theorem stepsOf_length (js : List Junction) (es : List Edge)
    (h : es.length + 1 = js.length) : (stepsOf js es).length = es.length := by
  have := congrArg List.length (stepsOf_map_edge js es h)
  simpa using this

/-! Helper lemmas: path reconstruction. -/

theorem reconstructPathAux_length (g : RoadGraph) (cancel : Nat → Bool) :
    ∀ (js : List Junction) (step : Nat) (es : List Edge),
    reconstructPathAux g cancel js step = some es →
    es.length = js.length - 1 := by
  intro js
  induction js with
  | nil =>
    intro step es h
    have h2 : (some ([] : List Edge)) = some es := h
    cases h2
    rfl
  | cons a js ih =>
    intro step es h
    cases js with
    | nil =>
      have h2 : (some ([] : List Edge)) = some es := h
      cases h2
      rfl
    | cons b rest =>
      simp only [reconstructPathAux] at h
      split at h
      · cases h
      · split at h
        · cases h
        · rename_i e he
          cases hr : reconstructPathAux g cancel (b :: rest) (step + 1) with
          | none => rw [hr] at h; cases h
          | some es2 =>
            rw [hr] at h
            have h3 : some (e :: es2) = some es := h
            cases h3
            have := ih (step + 1) es2 hr
            simp only [List.length_cons] at this ⊢
            omega

theorem reconstructPath_length (g : RoadGraph) (cancel : Nat → Bool)
    (path : List Junction) (es : List Edge) (hp : path ≠ [])
    (h : reconstructPath g cancel path = some es) :
    es.length + 1 = path.length := by
  have h1 := reconstructPathAux_length g cancel path 0 es h
  have hl : 1 ≤ path.length := by
    cases path with
    | nil => exact absurd rfl hp
    | cons a l => simp
  omega

theorem reconstructPathAux_cancel (g : RoadGraph) (cancel : Nat → Bool) :
    ∀ (js : List Junction) (step k : Nat), cancel (step + k) = true →
    k + 2 ≤ js.length → reconstructPathAux g cancel js step = none := by
  intro js
  induction js with
  | nil => intro step k _ hk; simp at hk
  | cons a js ih =>
    intro step k hc hk
    cases js with
    | nil => simp at hk
    | cons b rest =>
      cases k with
      | zero =>
        simp only [Nat.add_zero] at hc
        simp only [reconstructPathAux, hc]
        rfl
      | succ k =>
        simp only [reconstructPathAux]
        split
        · rfl
        · have hc2 : cancel ((step + 1) + k) = true := by
            rw [show (step + 1) + k = step + (k + 1) by omega]
            exact hc
          have hk2 : k + 2 ≤ (b :: rest).length := by
            simp at hk ⊢
            omega
          rw [ih (step + 1) k hc2 hk2]
          split <;> rfl

theorem reconstructPath_cancel (g : RoadGraph) (cancel : Nat → Bool)
    (path : List Junction) (k : Nat) (hc : cancel k = true)
    (hk : k + 2 ≤ path.length) :
    reconstructPath g cancel path = none :=
  reconstructPathAux_cancel g cancel path 0 k (by simpa using hc) hk

/-! Helper lemmas: the observable outputs do not depend on the loader-guard
    cache carried across calls.  Two engine states are view-equal when they
    share the feature store, both carry the never-assigned default recorded
    partition id, and agree on the two member collections. -/

theorem buildCandidates_viewEq (es : List Edge) (st st2 : Engine)
    (h : ViewEq st st2) :
    ViewEq (buildCandidates st es).1 (buildCandidates st2 es).1 ∧
      (buildCandidates st es).2 = (buildCandidates st2 es).2 := by
  obtain ⟨hidx, h0, h02, hadj, hsegs⟩ := h
  refine ⟨⟨?_, ?_, ?_, ?_, ?_⟩, ?_⟩
  · rw [buildCandidates_index, buildCandidates_index, hidx]
  · rw [buildCandidates_mwm, h0]
  · rw [buildCandidates_mwm, h02]
  · rw [buildCandidates_adjacent, buildCandidates_adjacent, hadj]
  · rw [buildCandidates_segments, buildCandidates_segments, hsegs]
  · rw [buildCandidates_spec es st h0, buildCandidates_spec es st2 h02, hidx]

theorem loadPathGeometry_viewEq (f : FeatureID) (p : List Point)
    (st st2 : Engine) (h : ViewEq st st2) :
    ViewEq (loadPathGeometry st f p).1 (loadPathGeometry st2 f p).1 ∧
      (loadPathGeometry st f p).2 = (loadPathGeometry st2 f p).2 := by
  obtain ⟨hidx, h0, h02, hadj, hsegs⟩ := h
  constructor
  · refine ⟨?_, ?_, ?_, ?_, ?_⟩
    · rw [load_index, load_index, hidx]
    · rw [load_mwm, h0]
    · rw [load_mwm, h02]
    · rw [load_adjacent, load_adjacent, hadj]
    · rw [load_segments, load_segments, hsegs]
  · by_cases hv : f.IsValid = true
    · rw [loadPathGeometry_snd st f p hv h0, loadPathGeometry_snd st2 f p hv h02,
        hidx]
    · unfold loadPathGeometry
      rw [if_neg hv, if_neg hv]

theorem processJunction_segments (st : Engine) (g : RoadGraph)
    (prev curr : Junction) (e : Edge) :
    (processJunction st g prev curr e).pathSegments =
      st.pathSegments ++
        [if e.featureId.IsValid then
           (loadPathGeometry (buildCandidates st (g.outgoingEdges curr)).1
             e.featureId [prev.point, curr.point]).2
         else LoadedPathSegment.cleared] := by
  unfold processJunction
  dsimp only
  split
  · rw [load_segments, buildCandidates_segments]
  · rw [buildCandidates_segments]

theorem processJunction_viewEq (g : RoadGraph) (prev curr : Junction)
    (e : Edge) (st st2 : Engine) (h : ViewEq st st2) :
    ViewEq (processJunction st g prev curr e)
      (processJunction st2 g prev curr e) := by
  have hbc := buildCandidates_viewEq (g.outgoingEdges curr) st st2 h
  obtain ⟨hidx, h0, h02, hadj, hsegs⟩ := h
  refine ⟨?_, ?_, ?_, ?_, ?_⟩
  · rw [processJunction_index, processJunction_index, hidx]
  · rw [processJunction_mwm, h0]
  · rw [processJunction_mwm, h02]
  · rw [processJunction_adjacent, processJunction_adjacent, hadj, hbc.2]
  · rw [processJunction_segments, processJunction_segments, hsegs]
    by_cases hv : e.featureId.IsValid = true
    · rw [if_pos hv, if_pos hv,
        (loadPathGeometry_viewEq e.featureId [prev.point, curr.point] _ _
          hbc.1).2]
    · rw [if_neg hv, if_neg hv]

theorem runLoop_viewEq (g : RoadGraph)
    (ts : List (Junction × Junction × Edge)) : ∀ st st2 : Engine,
    ViewEq st st2 → ViewEq (runLoop g st ts) (runLoop g st2 ts) := by
  induction ts with
  | nil => intro st st2 h; exact h
  | cons t ts ih =>
    intro st st2 h
    obtain ⟨prev, curr, e⟩ := t
    exact ih _ _ (processJunction_viewEq g prev curr e st st2 h)

/-! Helper lemmas: the branch structure of `generate`. -/

theorem generate_single (ext : Externals) (st : Engine) (g : RoadGraph)
    (j : Junction) (cancel : Nat → Bool) :
    generate ext st g [j] cancel =
      some (emptyPathWorkaround 1 []
        { st with adjacentEdges := [], pathSegments := [] }) := rfl

theorem generate_reconstruct_none (ext : Externals) (st : Engine)
    (g : RoadGraph) (path : List Junction) (cancel : Nat → Bool)
    (h2 : 2 ≤ path.length) (hr : reconstructPath g cancel path = none) :
    generate ext st g path cancel =
      some (emptyPathWorkaround path.length (ext.calcTimes g path)
        { st with adjacentEdges := [], pathSegments := [] }) := by
  unfold generate
  dsimp only
  rw [if_neg (by omega), if_neg (by omega), hr]

theorem generate_normal (ext : Externals) (st : Engine) (g : RoadGraph)
    (path : List Junction) (cancel : Nat → Bool) (es : List Edge)
    (h2 : 2 ≤ path.length) (hr : reconstructPath g cancel path = some es)
    (hne : es.isEmpty = false) :
    generate ext st g path cancel =
      (let st1 :=
        { st with
          adjacentEdges := mapInsert [] 0 (AdjacentEdges.ofIngoing 0)
          pathSegments := [] }
       let st2 := runLoop g st1 (stepsOf path es)
       let result :=
         mkAStarRoutingResult ext.dist es st2.adjacentEdges st2.pathSegments
       let ann := ext.turnAnno result
       some
         ({ times := ext.calcTimes g path
            turns := ann.turns
            routeGeometry := ann.routeGeometry
            adapterUsed := some result }, st2)) := by
  unfold generate
  dsimp only
  rw [if_neg (by omega), if_neg (by omega), hr]
  dsimp only
  rw [hne]
  rfl

/-- The observable outputs of `Generate` are a function of the inputs alone:
    any two engine states sharing the feature store (and carrying the
    never-assigned default recorded partition id) produce equal out
    parameters. -/
theorem generate_map_fst_eq (ext : Externals) (st st2 : Engine)
    (g : RoadGraph) (path : List Junction) (cancel : Nat → Bool)
    (hidx : st.index = st2.index) (h0 : st.mwmIdFeaturesLoaderGuard = 0)
    (h02 : st2.mwmIdFeaturesLoaderGuard = 0) :
    (generate ext st g path cancel).map (fun p => p.1) =
      (generate ext st2 g path cancel).map (fun p => p.1) := by
  by_cases hz : path.length = 0
  · unfold generate
    dsimp only
    rw [if_pos hz, if_pos hz]
  by_cases h1 : path.length ≤ 1
  · unfold generate
    dsimp only
    rw [if_neg hz, if_neg hz, if_pos h1, if_pos h1]
    rfl
  · unfold generate
    dsimp only
    rw [if_neg hz, if_neg hz, if_neg h1, if_neg h1]
    cases hr : reconstructPath g cancel path with
    | none => rfl
    | some es =>
      dsimp only
      by_cases he : es.isEmpty = true
      · rw [if_pos he, if_pos he]
        rfl
      · rw [if_neg he, if_neg he]
        have hv :
            ViewEq
              { st with
                adjacentEdges := mapInsert [] 0 (AdjacentEdges.ofIngoing 0)
                pathSegments := [] }
              { st2 with
                adjacentEdges := mapInsert [] 0 (AdjacentEdges.ofIngoing 0)
                pathSegments := [] } :=
          ⟨hidx, h0, h02, rfl, rfl⟩
        have hrl := runLoop_viewEq g (stepsOf path es) _ _ hv
        obtain ⟨_, _, _, hadj, hsegs⟩ := hrl
        rw [hadj, hsegs]
        rfl

/-- The post-state of `Generate` keeps the feature store and the (never
    assigned) recorded guard partition id of the entry state. -/
theorem generate_post (ext : Externals) (st : Engine) (g : RoadGraph)
    (path : List Junction) (cancel : Nat → Bool) :
    ∀ out st2, generate ext st g path cancel = some (out, st2) →
    st2.index = st.index ∧
      st2.mwmIdFeaturesLoaderGuard = st.mwmIdFeaturesLoaderGuard := by
  intro out st2 h
  unfold generate at h
  dsimp only at h
  split at h
  · exact Option.noConfusion h
  · split at h
    · injection h with h9
      have h2 : _ = st2 := congrArg Prod.snd h9
      rw [← h2]
      exact ⟨rfl, rfl⟩
    · cases hr : reconstructPath g cancel path with
      | none =>
        rw [hr] at h
        injection h with h9
        have h2 : _ = st2 := congrArg Prod.snd h9
        rw [← h2]
        exact ⟨rfl, rfl⟩
      | some es =>
        rw [hr] at h
        dsimp only at h
        split at h
        · injection h with h9
          have h2 : _ = st2 := congrArg Prod.snd h9
          rw [← h2]
          exact ⟨rfl, rfl⟩
        · injection h with h9
          have h2 : runLoop _ _ _ = st2 := congrArg Prod.snd h9
          rw [← h2]
          constructor
          · rw [runLoop_index]
          · rw [runLoop_mwm]

/-- Folding distance accumulation equals the mapped sum. -/
theorem foldl_add_eq (dist : Point → Point → ℚ) (es : List Edge) : ∀ a : ℚ,
    es.foldl (fun acc e => acc + dist e.startJ.point e.endJ.point) a =
      a + (es.map (fun e => dist e.startJ.point e.endJ.point)).sum := by
  induction es with
  | nil => intro a; simp
  | cons e es ih =>
    intro a
    simp only [List.foldl_cons, List.map_cons, List.sum_cons, ih]
    ring

/-! Claim theorems. -/

/-- C1, counterexample: on the empty junction path the entry check
    `CHECK_NOT_EQUAL(pathSize, 0, ())` aborts in every build, so `Generate`
    does not survive via the degenerate fallback there: the call produces no
    result at all. -/
theorem claim1_empty_path_aborts :
    generate ext0 (mkEngine idx0) graph3 [] nc = none := rfl

/-- C1, amended: for every nonempty input junction path `Generate` returns a
    result in all builds (the degenerate fallback covers the single-vertex
    path and every reconstruction failure); the empty path instead hits the
    always-on entry check and yields no result. -/
theorem claim1_nonempty_survives (ext : Externals) (st : Engine)
    (g : RoadGraph) (path : List Junction) (cancel : Nat → Bool)
    (hp : path ≠ []) :
    (generate ext st g path cancel).isSome = true := by
  have hz : path.length ≠ 0 := by
    simpa [List.length_eq_zero] using hp
  unfold generate
  dsimp only
  rw [if_neg hz]
  split
  · rfl
  · cases hrec : reconstructPath g cancel path with
    | none => rfl
    | some es =>
      dsimp only
      split <;> rfl

/-- C1, witness for the amended theorem at the one-junction path. -/
theorem claim1_witness :
    ([jA] : List Junction) ≠ [] ∧
      (generate ext0 (mkEngine idx0) graph3 [jA] nc).isSome = true :=
  ⟨by decide,
   claim1_nonempty_survives ext0 (mkEngine idx0) graph3 [jA] nc (by decide)⟩

/-- C2: evaluation of the loader-guard cache at the failing input.  Two
    consecutive `GetHighwayClass` resolutions against the same partition
    (id 1) on a fresh engine construct two loader guards instead of reusing
    the first: the source never assigns `m_mwmIdFeaturesLoaderGuard`, so the
    recorded id stays at its default and the same-partition test never
    matches.  The claim (and the spec) say the second resolution must reuse
    the cached loader. -/
theorem claim2_cache_never_reused :
    ((getHighwayClass (mkEngine idx0) ⟨1, 7⟩).1.loaderConstructions = 1) ∧
    ((getHighwayClass (getHighwayClass (mkEngine idx0) ⟨1, 7⟩).1
        ⟨1, 7⟩).1.loaderConstructions = 2) ∧
    ((getHighwayClass (mkEngine idx0) ⟨1, 7⟩).1.mwmIdFeaturesLoaderGuard
        = 0) ∧
    ((getHighwayClass (mkEngine idx0) ⟨1, 7⟩).1.featuresLoaderGuard
        = some ⟨1⟩) :=
  ⟨rfl, rfl, rfl, rfl⟩

/-- C3, counterexample: an absent key is not distinguishable from a present
    entry with zero candidates — `GetPossibleTurns` returns the identical
    zeroed out-parameters in both cases (the debug assertion is a no-op in
    release builds). -/
theorem claim3_absent_indistinguishable :
    r3abs.getPossibleTurns 7 = r3abs.getPossibleTurns 0 ∧
      mapFind r3abs.adjacentEdges 7 = none ∧
      mapFind r3abs.adjacentEdges 0 = some (AdjacentEdges.ofIngoing 0) :=
  ⟨rfl, rfl, rfl⟩

/-- C3, amended: a present key yields the ingoing count and
    outgoing candidates; an absent key degrades to the zeroed result
    `(0, [])`, which coincides with a successful zero-candidate result and
    is flagged only by a debug assertion. -/
theorem claim3_lookup (r : AStarRoutingResult) (node : Nat)
    (a : AdjacentEdges) :
    (mapFind r.adjacentEdges node = none →
      r.getPossibleTurns node = (0, [])) ∧
    (mapFind r.adjacentEdges node = some a →
      r.getPossibleTurns node =
        (a.ingoingTurnsCount, a.outgoingTurns.candidates)) := by
  constructor
  · intro h
    unfold AStarRoutingResult.getPossibleTurns
    rw [h]
  · intro h
    unfold AStarRoutingResult.getPossibleTurns
    rw [h]

/-- C3, witness: the amended lookup applied on both sides of the concrete
    fixture. -/
theorem claim3_witness :
    r3abs.getPossibleTurns 7 = (0, []) ∧ r3abs.getPossibleTurns 0 = (0, []) :=
  ⟨(claim3_lookup r3abs 7 (AdjacentEdges.ofIngoing 0)).1 rfl,
   (claim3_lookup r3abs 0 (AdjacentEdges.ofIngoing 0)).2 rfl⟩

/-- C5: when the cancellation signal fires at some poll inside the edge
    reconstruction of a path with at least three junctions, `Generate`
    yields exactly the degenerate single-turn result: the already computed
    times, one reached-destination turn, empty geometry, no adapter, an
    empty member segment list and the lone origin adjacency record. -/
theorem claim5_cancellation_degenerate (ext : Externals) (st : Engine)
    (g : RoadGraph) (path : List Junction) (cancel : Nat → Bool) (k : Nat)
    (h3 : 3 ≤ path.length) (hk : k + 2 ≤ path.length)
    (hc : cancel k = true) :
    (generate ext st g path cancel).map (fun p => p.1) =
      some
        { times := ext.calcTimes g path
          turns := [⟨path.length - 1, TurnDirection.ReachedYourDestination⟩]
          routeGeometry := []
          adapterUsed := none } ∧
    (generate ext st g path cancel).map (fun p => p.2.pathSegments) =
      some [] ∧
    (generate ext st g path cancel).map (fun p => p.2.adjacentEdges) =
      some [(0, AdjacentEdges.ofIngoing 1)] := by
  have hrn := reconstructPath_cancel g cancel path k hc hk
  have hg := generate_reconstruct_none ext st g path cancel (by omega) hrn
  rw [hg]
  exact ⟨rfl, rfl, rfl⟩

/-- C5, witness: the always-fired signal on the three-junction fixture. -/
theorem claim5_witness :
    (generate ext0 (mkEngine idx0) graph3 path3 cancelT).map (fun p => p.1)
        =
      some
        { times := ext0.calcTimes graph3 path3
          turns := [⟨path3.length - 1, TurnDirection.ReachedYourDestination⟩]
          routeGeometry := []
          adapterUsed := none } ∧
    (generate ext0 (mkEngine idx0) graph3 path3 cancelT).map
        (fun p => p.2.pathSegments) = some [] ∧
    (generate ext0 (mkEngine idx0) graph3 path3 cancelT).map
        (fun p => p.2.adjacentEdges) = some [(0, AdjacentEdges.ofIngoing 1)] :=
  claim5_cancellation_degenerate ext0 (mkEngine idx0) graph3 path3 cancelT 0
    (by decide) (by decide) rfl

/-- C7: on a single-junction path the output turn list is exactly one
    reached-destination entry at index 0, and the adjacency map holds the
    single record at key 0 reporting one ingoing edge and no outgoing
    candidates. -/
theorem claim7_single_junction (ext : Externals) (st : Engine)
    (g : RoadGraph) (cancel : Nat → Bool) (j : Junction) :
    (generate ext st g [j] cancel).map (fun p => p.1) =
      some
        { times := []
          turns := [⟨0, TurnDirection.ReachedYourDestination⟩]
          routeGeometry := []
          adapterUsed := none } ∧
    (generate ext st g [j] cancel).map (fun p => p.2.adjacentEdges) =
      some [(0, ⟨1, ⟨true, []⟩⟩)] :=
  ⟨rfl, rfl⟩

/-- C9: the route length the adapter reports is the sum, over the traversed
    edges in order, of the distance between the start point and the end
    point of each edge. -/
theorem claim9_length_sum (dist : Point → Point → ℚ) (es : List Edge)
    (adj : AdjacentEdgesMap) (segs : List LoadedPathSegment)
    (hne : es ≠ []) :
    (mkAStarRoutingResult dist es adj segs).getPathLength =
      (es.map (fun e => dist e.startJ.point e.endJ.point)).sum := by
  unfold AStarRoutingResult.getPathLength mkAStarRoutingResult
  dsimp only
  rw [foldl_add_eq]
  simp

/-- C9, witness: the two-edge fixture under the unit distance function. -/
theorem claim9_witness :
    ([eAB, eBC] : List Edge) ≠ [] ∧
      (mkAStarRoutingResult dist1 [eAB, eBC] [] []).getPathLength =
        ([eAB, eBC].map
          (fun e => dist1 e.startJ.point e.endJ.point)).sum :=
  ⟨by decide, claim9_length_sum dist1 [eAB, eBC] [] [] (by decide)⟩

/-- C6: the adjacency record a junction pass registers carries exactly the
    candidate set the spec describes: one entry per outgoing edge whose
    feature identifier is valid, with the resolved road class of that edge,
    and no entry for synthetic edges; the record reports the raw ingoing
    count and is keyed by the feature index of the entering edge. -/
theorem claim6_candidate_filter (st : Engine) (g : RoadGraph)
    (prev curr : Junction) (e : Edge)
    (h0 : st.mwmIdFeaturesLoaderGuard = 0) :
    (processJunction st g prev curr e).adjacentEdges =
      mapInsert st.adjacentEdges e.featureId.index
        ⟨(g.ingoingEdges curr).length,
         ⟨false, candidatesSpec st.index (g.outgoingEdges curr)⟩⟩ := by
  rw [processJunction_adjacent, buildCandidates_spec _ _ h0]

/-- C6, witness: at junction `jB` (one fake and two real outgoing edges) the
    registered candidate set has exactly the two entries of the real edges,
    carrying their road classes. -/
theorem claim6_witness :
    ((processJunction (mkEngine idx0) graph3 jA jB eAB).adjacentEdges =
      mapInsert (mkEngine idx0).adjacentEdges eAB.featureId.index
        ⟨(graph3.ingoingEdges jB).length,
         ⟨false, candidatesSpec (mkEngine idx0).index
           (graph3.outgoingEdges jB)⟩⟩) ∧
    candidatesSpec (mkEngine idx0).index (graph3.outgoingEdges jB) =
      [⟨0, 9, HighwayClass.Secondary⟩, ⟨0, 11, HighwayClass.Tertiary⟩] :=
  ⟨claim6_candidate_filter (mkEngine idx0) graph3 jA jB eAB rfl, rfl⟩

/-- C8: running `Generate` twice with the identical graph, path and (never
    firing) cancellation signal produces identical outputs — the loader
    cache the engine retains between the calls does not influence the
    result.  The recorded guard partition id is 0 in every reachable state,
    since the source never assigns it. -/
theorem claim8_idempotent (ext : Externals) (st : Engine) (g : RoadGraph)
    (path : List Junction) (cancel : Nat → Bool) (out1 : GenerateOutput)
    (st1 : Engine) (out2 : GenerateOutput) (st2 : Engine)
    (h0 : st.mwmIdFeaturesLoaderGuard = 0)
    (hnc : ∀ k, cancel k = false)
    (h1 : generate ext st g path cancel = some (out1, st1))
    (h2 : generate ext st1 g path cancel = some (out2, st2)) :
    out1 = out2 := by
  have hp := generate_post ext st g path cancel out1 st1 h1
  have heq := generate_map_fst_eq ext st st1 g path cancel hp.1.symm h0
    (by rw [hp.2, h0])
  rw [h1, h2] at heq
  exact Option.some.inj heq

/-- C8, witness: two consecutive runs on the three-junction fixture. -/
theorem claim8_witness : run3.1 = run3b.1 :=
  claim8_idempotent ext0 (mkEngine idx0) graph3 path3 nc run3.1 run3.2
    run3b.1 run3b.2 rfl (fun _ => rfl) rfl rfl

/-- C4, counterexample: when the two traversed edges share feature index 7,
    the adjacency map of the successful run holds 2 entries, not the 3 the
    claim demands (the key-0 sentinel plus one entry per traversed edge):
    `std::map::insert` keeps the existing entry on a key collision. -/
theorem claim4_duplicate_key_collapses :
    (generate ext0 (mkEngine idx0) graphDup path3 nc).map
        (fun p => p.2.adjacentEdges.length) = some 2 ∧
      (generate ext0 (mkEngine idx0) graphDup path3 nc).map
        (fun p => (p.1.adapterUsed.getD dfltAdapter).routeEdges.length) =
          some 2 ∧
      (2 : Nat) ≠ 1 + 2 :=
  ⟨rfl, rfl, by decide⟩

/-- C4, amended: in the non-degenerate branch the segment sequence length
    equals the traversed-edge count, the adjacency map keys are pairwise
    distinct, and a key is present exactly when it is 0 or the feature index
    of some traversed edge — one entry per distinct key, the first
    insertion winning, so an edge whose index repeats an earlier key (or
    equals 0) adds no additional entry. -/
theorem claim4_adjacency_keys (ext : Externals) (st : Engine) (g : RoadGraph)
    (path : List Junction) (cancel : Nat → Bool) (out : GenerateOutput)
    (st2 : Engine) (r : AStarRoutingResult) (k : Nat)
    (h : generate ext st g path cancel = some (out, st2))
    (hadp : out.adapterUsed = some r) :
    st2.pathSegments.length = r.routeEdges.length ∧
    (st2.adjacentEdges.map (fun p => p.1)).Nodup ∧
    ((mapFind st2.adjacentEdges k).isSome = true ↔
      k = 0 ∨ k ∈ r.routeEdges.map (fun e => e.featureId.index)) := by
  unfold generate at h
  dsimp only at h
  split at h
  · exact Option.noConfusion h
  · split at h
    · injection h with h9
      have hout : _ = out := congrArg Prod.fst h9
      rw [← hout] at hadp
      exact Option.noConfusion hadp
    · rename_i hps1
      cases hrec : reconstructPath g cancel path with
      | none =>
        rw [hrec] at h
        injection h with h9
        have hout : _ = out := congrArg Prod.fst h9
        rw [← hout] at hadp
        exact Option.noConfusion hadp
      | some es =>
        rw [hrec] at h
        dsimp only at h
        split at h
        · injection h with h9
          have hout : _ = out := congrArg Prod.fst h9
          rw [← hout] at hadp
          exact Option.noConfusion hadp
        · rename_i hne
          injection h with h9
          have hout : _ = out := congrArg Prod.fst h9
          have hst2 : runLoop _ _ _ = st2 := congrArg Prod.snd h9
          rw [← hout] at hadp
          injection hadp with hadp9
          have hpne : path ≠ [] := by
            intro hnil
            rw [hnil] at hps1
            simp at hps1
          have hlen := reconstructPath_length g cancel path es hpne hrec
          refine ⟨?_, ?_, ?_⟩
          · rw [← hst2, ← hadp9, mkAStar_routeEdges,
              runLoop_segments_length, stepsOf_length path es hlen]
            simp
          · rw [← hst2]
            refine runLoop_keys_nodup g _ _ ?_
            simp [mapInsert, mapFind]
          · have hmm :
                (stepsOf path es).map (fun t => t.2.2.featureId.index) =
                  es.map (fun e => e.featureId.index) := by
              have h5 := congrArg (List.map (fun e => e.featureId.index))
                (stepsOf_map_edge path es hlen)
              rw [List.map_map] at h5
              exact h5
            rw [← hst2, ← hadp9, mkAStar_routeEdges,
              runLoop_find_isSome, hmm]
            dsimp only
            rw [mapFind_isSome_iff]
            simp [mapInsert, mapFind]

/-- C4, witness: the amended statement evaluated on the three-junction
    fixture at key 7 (the feature index of the first traversed edge). -/
theorem claim4_witness :
    run3.2.pathSegments.length =
      (run3.1.adapterUsed.getD dfltAdapter).routeEdges.length ∧
    (run3.2.adjacentEdges.map (fun p => p.1)).Nodup ∧
    ((mapFind run3.2.adjacentEdges 7).isSome = true ↔
      7 = 0 ∨ 7 ∈ (run3.1.adapterUsed.getD dfltAdapter).routeEdges.map
        (fun e => e.featureId.index)) :=
  claim4_adjacency_keys ext0 (mkEngine idx0) graph3 path3 nc run3.1 run3.2
    (run3.1.adapterUsed.getD dfltAdapter) 7 rfl rfl

/-- C10: whenever `Generate` builds the adapter and hands it to the turn
    annotation algorithm, the underlying traversed-edge sequence is
    nonempty, so the emptiness failure checks inside `GetStartPoint` and
    `GetEndPoint` cannot fire; and whenever edge reconstruction fails or
    yields an empty sequence, the degenerate branch is taken and no adapter
    is built. -/
theorem claim10_adapter_nonempty (ext : Externals) (st : Engine)
    (g : RoadGraph) (path : List Junction) (cancel : Nat → Bool)
    (out : GenerateOutput) (st2 : Engine) (r : AStarRoutingResult)
    (h : generate ext st g path cancel = some (out, st2)) :
    (out.adapterUsed = some r →
      r.routeEdges ≠ [] ∧ r.getStartPoint.isSome = true ∧
        r.getEndPoint.isSome = true) ∧
    (reconstructPath g cancel path = none ∨
        reconstructPath g cancel path = some [] →
      out.adapterUsed = none) := by
  unfold generate at h
  dsimp only at h
  split at h
  · exact Option.noConfusion h
  · split at h
    · injection h with h9
      have hout : _ = out := congrArg Prod.fst h9
      constructor
      · intro hadp
        rw [← hout] at hadp
        exact Option.noConfusion hadp
      · intro _
        rw [← hout]
        rfl
    · cases hrec : reconstructPath g cancel path with
      | none =>
        rw [hrec] at h
        injection h with h9
        have hout : _ = out := congrArg Prod.fst h9
        constructor
        · intro hadp
          rw [← hout] at hadp
          exact Option.noConfusion hadp
        · intro _
          rw [← hout]
          rfl
      | some es =>
        rw [hrec] at h
        dsimp only at h
        split at h
        · rename_i hemp
          injection h with h9
          have hout : _ = out := congrArg Prod.fst h9
          constructor
          · intro hadp
            rw [← hout] at hadp
            exact Option.noConfusion hadp
          · intro _
            rw [← hout]
            rfl
        · rename_i hemp
          injection h with h9
          have hout : _ = out := congrArg Prod.fst h9
          have hesne : es ≠ [] := by
            intro hnil
            rw [hnil] at hemp
            simp at hemp
          constructor
          · intro hadp
            rw [← hout] at hadp
            injection hadp with hadp9
            rw [← hadp9]
            refine ⟨by rw [mkAStar_routeEdges]; exact hesne, ?_, ?_⟩
            · unfold AStarRoutingResult.getStartPoint
              rw [mkAStar_routeEdges]
              cases es with
              | nil => exact absurd rfl hesne
              | cons e es => rfl
            · unfold AStarRoutingResult.getEndPoint
              rw [mkAStar_routeEdges]
              cases es with
              | nil => exact absurd rfl hesne
              | cons e es =>
                simp
          · intro hdisj
            cases hdisj with
            | inl h5 => exact Option.noConfusion h5
            | inr h5 =>
              injection h5 with h6
              exact absurd h6 hesne

/-- C10, witness: the adapter of the successful fixture run has a nonempty
    edge list and defined start and end points. -/
theorem claim10_witness :
    (run3.1.adapterUsed.getD dfltAdapter).routeEdges ≠ [] ∧
    (run3.1.adapterUsed.getD dfltAdapter).getStartPoint.isSome = true ∧
    (run3.1.adapterUsed.getD dfltAdapter).getEndPoint.isSome = true :=
  (claim10_adapter_nonempty ext0 (mkEngine idx0) graph3 path3 nc run3.1
    run3.2 (run3.1.adapterUsed.getD dfltAdapter) rfl).1 rfl

end BicycleDirections
